import Mathlib

/-!
Verification of the Garden action-graph / template-resolver core against its
natural-language specification.

The definitions below are shallow embeddings of the TypeScript sources:

* `src/core/src/template-string.ts` — `buildBinaryExpression`,
  `buildLogicalExpression`, `resolveTemplateStrings` (the `$merge` driver).
* `src/core/src/process.ts` — `processActions` config-event handlers,
  `validateConfigChange`, `TestTask`, `DeleteDeployTask`.
* `src/core/src/commands/base.ts` — `handleProcessResults`,
  `prepareProcessResult`.
* the `DeleteDeployCommand` (`delete deploy`) command action.

JavaScript values appearing in template expressions are modelled by the
inductive type `JsVal`.  Numbers are modelled as rationals (exact arithmetic;
IEEE-754 rounding, NaN and infinities are outside the scope of the claims
settled here, none of which concerns numeric precision or division by zero).
Compound values (`arr`, `obj`) denote separately-constructed JavaScript
values, so JavaScript reference identity (`===` on two such values produced
by independent evaluations) is `false`; no theorem below depends on the
value of `===` between two compound operands.
-/

/-- JavaScript values flowing through template-expression evaluation. -/
inductive JsVal where
  | null : JsVal
  | bool (b : Bool) : JsVal
  | num (q : Rat) : JsVal
  | str (s : String) : JsVal
  | arr (xs : List JsVal) : JsVal
  | obj (fields : List (String × JsVal)) : JsVal

/-- lodash `isNumber` restricted to template values: true exactly on numbers. -/
def JsVal.isNum : JsVal → Bool
  | .num _ => true
  | _ => false

/-- `util.isArray`: true exactly on arrays. -/
def JsVal.isArr : JsVal → Bool
  | .arr _ => true
  | _ => false

/-- lodash `isPlainObject`: true exactly on plain objects. -/
def JsVal.isObjVal : JsVal → Bool
  | .obj _ => true
  | _ => false

/-- `isPrimitive` from `config/common`: strings, numbers, booleans and null
are primitive; arrays and objects are not. -/
def isPrimitive : JsVal → Bool
  | .null => true
  | .bool _ => true
  | .num _ => true
  | .str _ => true
  | .arr _ => false
  | .obj _ => false

/-- JavaScript `typeof` on the modelled values (`typeof null` is "object"). -/
def typeofStr : JsVal → String
  | .null => "object"
  | .bool _ => "boolean"
  | .num _ => "number"
  | .str _ => "string"
  | .arr _ => "object"
  | .obj _ => "object"

/-- JavaScript strict equality `===` on the modelled values.  On primitives it
is structural; two compound values constructed by independent evaluations are
distinct references, hence `false`; mixed-type comparison is `false`. -/
def jsStrictEq : JsVal → JsVal → Bool
  | .null, .null => true
  | .bool a, .bool b => a == b
  | .num a, .num b => decide (a = b)
  | .str a, .str b => a == b
  | _, _ => false

/-- JavaScript truthiness (`!!v`): `false`, `0`, `""`, `null` and `undefined`
(modelled as `none`) are falsy; everything else, including `[]` and objects,
is truthy. -/
def truthy : Option JsVal → Bool
  | none => false
  | some .null => false
  | some (.bool b) => b
  | some (.num n) => !(decide (n = 0))
  | some (.str s) => !(s == "")
  | some (.arr _) => true
  | some (.obj _) => true

/-- `missingKeyExceptionType` in `template-string.ts`. -/
def missingKeyExceptionType : String := "template-string-missing-key"

/-- `passthroughExceptionType` in `template-string.ts`. -/
def passthroughExceptionType : String := "template-string-passthrough"

/-- The `type` field of the `TemplateStringError` class. -/
def templateStringType : String := "template-string"

/-- An operand of `buildBinaryExpression` / `buildLogicalExpression`: either
an error marker `{ _error }` (with the error class's `type` and message), a
`ContextResolveOutput` clause `{ resolved, message }` produced by a key
lookup, or a plain value (a literal, or the result of a previous operator
application). -/
inductive Operand where
  | errRes (errType : String) (msg : String) : Operand
  | res (resolved : Option JsVal) (message : Option String) : Operand
  | plain (v : JsVal) : Operand

/-- Whether the operand carries an `_error` field. -/
def Operand.isError : Operand → Bool
  | .errRes _ _ => true
  | _ => false

/-- `getValue` in `template-string.ts`: a plain-object clause contributes its
`resolved` field, anything else is used directly.  (The error case never
reaches `getValue` — both builders return early on `_error`.) -/
def getValue : Operand → Option JsVal
  | .errRes _ _ => none
  | .res resolved _ => resolved
  | .plain v => some v

/-- The `message` field of an operand, for the undefined-operand error text
(`res.message` is `undefined` on non-clause operands). -/
def Operand.message : Operand → Option String
  | .errRes _ _ => none
  | .res _ m => m
  | .plain _ => none

/-- The message of the undefined-operand error in `buildBinaryExpression`:
`[leftRes, rightRes].map((res) => res.message).filter(Boolean).join(" ")`,
falling back to "Could not resolve one or more keys." when empty. -/
def undefinedMessage (leftRes rightRes : Operand) : String :=
  let parts := ([leftRes.message, rightRes.message].filterMap id).filter (fun s => !(s == ""))
  let joined := String.intercalate " " parts
  if joined == "" then "Could not resolve one or more keys." else joined

/-- Error message of the `+` type mismatch branch. -/
def plusMismatchMsg (left right : JsVal) : String :=
  "Both terms need to be either arrays or numbers for + operator (got "
    ++ typeofStr left ++ " and " ++ typeofStr right ++ ")."

/-- Error message of the numeric-operand check. -/
def numbersRequiredMsg (operator : String) (left right : JsVal) : String :=
  "Both terms need to be numbers for " ++ operator ++ " operator (got "
    ++ typeofStr left ++ " and " ++ typeofStr right ++ ")."

/-- JavaScript truncation toward zero of a rational. -/
def jsTrunc (q : Rat) : Int := q.num.tdiv (q.den : Int)

/-- JavaScript `%` (fmod) on the modelled numbers. -/
def jsMod (a b : Rat) : Rat := a - b * ((jsTrunc (a / b) : Int) : Rat)

/-- One step of the `reduce` in `buildBinaryExpression` in
`template-string.ts`: propagate `_error` operands, reject undefined operands
with a `TemplateStringError`, then dispatch on the operator exactly as the
source does (`==`/`!=` via `===`, `+` on numbers or arrays, the remaining
operators on numbers only). -/
def evalBinaryStep (operator : String) (leftRes rightRes : Operand) : Operand :=
  if leftRes.isError then leftRes
  else if rightRes.isError then rightRes
  else
    let left := getValue leftRes
    let right := getValue rightRes
    -- Disallow undefined values for comparisons
    if left.isNone || right.isNone then
      .errRes templateStringType (undefinedMessage leftRes rightRes)
    else
      let l := left.getD .null
      let r := right.getD .null
      if operator == "==" then .plain (.bool (jsStrictEq l r))
      else if operator == "!=" then .plain (.bool (!jsStrictEq l r))
      else if operator == "+" then
        match l, r with
        | .num a, .num b => .plain (.num (a + b))
        | .arr xs, .arr ys => .plain (.arr (xs ++ ys))
        | _, _ => .errRes templateStringType (plusMismatchMsg l r)
      else
        match l, r with
        | .num a, .num b =>
          if operator == "*" then .plain (.num (a * b))
          else if operator == "/" then .plain (.num (a / b))
          else if operator == "%" then .plain (.num (jsMod a b))
          else if operator == "-" then .plain (.num (a - b))
          else if operator == "<=" then .plain (.bool (a ≤ b))
          else if operator == ">=" then .plain (.bool (b ≤ a))
          else if operator == "<" then .plain (.bool (a < b))
          else if operator == ">" then .plain (.bool (b < a))
          else .errRes templateStringType ("Unrecognized operator: " ++ operator)
        | _, _ => .errRes templateStringType (numbersRequiredMsg operator l r)

/-- `buildBinaryExpression(head, tail)`: left fold of `evalBinaryStep` over
the `(operator, operand)` pairs of the tail. -/
def buildBinaryExpression (head : Operand) (tail : List (String × Operand)) : Operand :=
  tail.foldl (fun result element => evalBinaryStep element.1 result element.2) head

/-- One step of the `reduce` in `buildLogicalExpression`: propagate `_error`
operands, then short-circuit on the truthiness of the left operand, returning
the raw operand (`leftRes` / `rightRes`), never a coerced boolean. -/
def evalLogicalStep (operator : String) (leftRes rightRes : Operand) : Operand :=
  if leftRes.isError then leftRes
  else if rightRes.isError then rightRes
  else
    let left := getValue leftRes
    if operator == "&&" then (if !truthy left then leftRes else rightRes)
    else if operator == "||" then (if truthy left then leftRes else rightRes)
    else .errRes templateStringType ("Unrecognized operator: " ++ operator)

/-- `buildLogicalExpression(head, tail)`. -/
def buildLogicalExpression (head : Operand) (tail : List (String × Operand)) : Operand :=
  tail.foldl (fun result element => evalLogicalStep element.1 result element.2) head

/-- Modelled from the spec: the generated template-string grammar
(`template-string-parser`) is not under `src/`; `template-string.ts` only
hands it the two exception-type constants `missingKeyExceptionType` and
`passthroughExceptionType` together with the `optionalSuffix` marker.  Per
the spec, the optional suffix `}?` "marks a reference whose absence is
non-fatal": a failure of the missing-key (or passthrough) kind is turned
into a non-fatal undefined result, while any other failure is kept. -/
def applyOptionalSuffix (r : Operand) : Operand :=
  match r with
  | .errRes t m =>
      if t == missingKeyExceptionType || t == passthroughExceptionType then .res none none
      else .errRes t m
  | other => other

/-- The arithmetic and comparison operators of the template grammar. -/
def arithCompOps : List String :=
  ["+", "-", "*", "/", "%", "==", "!=", "<", "<=", ">", ">="]

/-- Errors thrown during recursive template resolution: `TemplateStringError`
(and kin), or the `ConfigurationError` raised by the `$merge` driver. -/
inductive TplError where
  | templateError (errType : String) (msg : String)
  | configurationError (msg : String)

/-- The reserved object-spread token `objectSpreadKey` (imported by
`template-string.ts` from `config/common`, which is not under `src/`; its
value is the spec's reserved `$merge` token). -/
def objectSpreadKey : String := "$merge"

/-- JavaScript property assignment `output[k] = v` on an insertion-ordered
object: replaces the binding in place when the key is present (JS object
keys are unique), appends otherwise. -/
def assignEntry : List (String × JsVal) → String → JsVal → List (String × JsVal)
  | [], k, v => [(k, v)]
  | e :: rest, k, v => if e.1 == k then (k, v) :: rest else e :: assignEntry rest k v

/-- JavaScript object spread `{ ...output, ...m }`: assign every entry of
`m`, in order, into `output`. -/
def spreadEntries (output m : List (String × JsVal)) : List (String × JsVal) :=
  m.foldl (fun acc e => assignEntry acc e.1 e.2) output

/-- Message of the `ConfigurationError` raised for a non-mapping `$merge`
value. -/
def mergeErrorMsg (resolved : JsVal) : String :=
  "Value of " ++ objectSpreadKey ++ " key must be (or resolve to) a mapping object (got "
    ++ typeofStr resolved ++ ")"

mutual

/-- `resolveTemplateStrings` from `template-string.ts`, parameterized by
`rs` — the `resolveTemplateString(_, context, opts)` call performed on leaf
strings — and `ap` (`opts.allowPartial`).  Strings resolve via `rs`, arrays
map recursively, plain objects run the `$merge` driver, and all other
values are returned unchanged. -/
def resolveTemplateStrings (rs : String → Except TplError JsVal) (ap : Bool) :
    JsVal → Except TplError JsVal
  | .str s => rs s
  | .arr vs => do pure (JsVal.arr (← resolveTemplateList rs ap vs))
  | .obj kvs => do pure (JsVal.obj (← resolveObjEntries rs ap kvs []))
  | .null => pure .null
  | .bool b => pure (.bool b)
  | .num q => pure (.num q)

/-- Recursive resolution of an array's elements. -/
def resolveTemplateList (rs : String → Except TplError JsVal) (ap : Bool) :
    List JsVal → Except TplError (List JsVal)
  | [] => pure []
  | v :: rest => do
      pure ((← resolveTemplateStrings rs ap v) :: (← resolveTemplateList rs ap rest))

/-- The `for (const [k, v] of Object.entries(value))` loop of
`resolveTemplateStrings`: each value is resolved first (depth-first,
leaves-first); a `$merge` key whose resolved value is a plain object is
spread into the accumulated output; a non-mapping `$merge` value is kept
under the `$merge` key when `ap` is set and otherwise raises a
`ConfigurationError`; any other key is assigned into the output. -/
def resolveObjEntries (rs : String → Except TplError JsVal) (ap : Bool) :
    List (String × JsVal) → List (String × JsVal) → Except TplError (List (String × JsVal))
  | [], output => pure output
  | (k, v) :: rest, output => do
      let resolved ← resolveTemplateStrings rs ap v
      if k == objectSpreadKey then
        match resolved with
        | .obj m => resolveObjEntries rs ap rest (spreadEntries output m)
        | _ =>
          if ap then resolveObjEntries rs ap rest (assignEntry output k resolved)
          else throw (TplError.configurationError (mergeErrorMsg resolved))
      else resolveObjEntries rs ap rest (assignEntry output k resolved)

end


/-- Key lookup on an insertion-ordered object. -/
def lookupEntry (entries : List (String × JsVal)) (k : String) : Option JsVal :=
  (entries.find? (fun e => e.1 == k)).map (fun e => e.2)

/-- A Deploy-only view of the ConfigGraph: the names of the Deploy actions
and the dependency edges between them (`(x, y)` meaning Deploy `x` depends
on Deploy `y`).  Both `DeleteDeployTask.resolveDependencies` and
`DeleteDeployCommand` filter graph nodes to deploys (`depNode.type ===
"deploy"` / `isDeployAction`), so that filter is built into this view. -/
structure DeployGraph where
  deploys : List String
  dependsOn : List (String × String)

/-- Modelled from the spec: `ConfigGraph.getDependants` lives in
`graph/config-graph.ts`, which is not under `src/` (only callers are).  Per
the spec's graph accessor `getDependants(ref, recursive)`, with
`recursive: false` it returns the direct dependants: the actions holding a
dependency edge onto the given one. -/
def directDependants (g : DeployGraph) (name : String) : List String :=
  g.deploys.filter (fun x => g.dependsOn.contains (x, name))

/-- `DeleteDeployTask` (`tasks/delete-service` section of `process.ts`): a
deploy action name, the `dependantsFirst` flag, and `deleteDeployNames`, the
set of deploy names being deleted (the constructor defaults it to
`[action.name]`). -/
structure DeleteDeployTask where
  name : String
  dependantsFirst : Bool
  deleteDeployNames : List String
deriving DecidableEq

/-- `DeleteDeployTask.resolveDependencies`: no prerequisite tasks unless
`dependantsFirst`; otherwise one `DeleteDeployTask` (with the same
`deleteDeployNames` and `dependantsFirst: true`) per direct deploy
dependant whose name is among `deleteDeployNames`. -/
def DeleteDeployTask.resolveDependencies (g : DeployGraph) (t : DeleteDeployTask) :
    List DeleteDeployTask :=
  if !t.dependantsFirst then []
  else
    ((directDependants g t.name).filter (fun n => t.deleteDeployNames.contains n)).map
      (fun n => { name := n, dependantsFirst := true, deleteDeployNames := t.deleteDeployNames })

/-- Modelled from the spec: the task solver is not under `src/`.  Per the
spec's ordering guarantee, "a task T observes the results of every task in
deps(T) before it starts"; an execution order is valid when every
prerequisite of a scheduled task occupies an earlier position. -/
def validOrder (g : DeployGraph) (order : List DeleteDeployTask) : Prop :=
  ∀ i : Fin order.length, ∀ d ∈ (order.get i).resolveDependencies g,
    ∃ j : Fin order.length, j.1 < i.1 ∧ order.get j = d

instance validOrderDecidable (g : DeployGraph) (order : List DeleteDeployTask) :
    Decidable (validOrder g order) := by
  unfold validOrder
  exact inferInstance

/-- The spec's dependants-first scenario graph: Deploy `b` depends on
Deploy `a`. -/
def gScenario : DeployGraph := ⟨["a", "b"], [("b", "a")]⟩

/-- `DeleteDeploy(a)` as scheduled by `delete deploy --dependants-first`
when both deploys are being deleted. -/
def scenarioTaskA : DeleteDeployTask := ⟨"a", true, ["a", "b"]⟩

/-- `DeleteDeploy(b)` of the same run. -/
def scenarioTaskB : DeleteDeployTask := ⟨"b", true, ["a", "b"]⟩

/-- Modelled from the spec: `ConfigGraph.getDeploys` is not under `src/`.
Per the spec's accessor `getActions(refs?, filter?)`: with no names it
returns every Deploy action, with names the named ones. -/
def getDeploys (g : DeployGraph) (names : Option (List String)) : List String :=
  match names with
  | none => g.deploys
  | some ns => g.deploys.filter (fun n => ns.contains n)

/-- Reverse reachability with bounded path length (a path of at most
`fuel + 1` edges). -/
def pathDep (g : DeployGraph) : Nat → String → String → Bool
  | 0, x, y => g.dependsOn.contains (x, y)
  | n + 1, x, y =>
      g.dependsOn.contains (x, y)
        || g.deploys.any (fun z => g.dependsOn.contains (x, z) && pathDep g n z y)

/-- Modelled from the spec: `getDependants(ref, recursive: true)` of the
missing `graph/config-graph.ts` returns every action that transitively
depends on the given one.  Fuel `|deploys|` suffices: any dependency path
can be shortened to a simple path. -/
def dependsTransitively (g : DeployGraph) (x y : String) : Bool :=
  pathDep g g.deploys.length x y

/-- The deploy actions transitively depending on `name`. -/
def recursiveDependants (g : DeployGraph) (name : String) : List String :=
  g.deploys.filter (fun x => dependsTransitively g x name)

/-- `uniqByName` from `util/util`: first occurrence of each name wins. -/
def uniqByName (xs : List String) : List String :=
  xs.foldl (fun acc x => if acc.contains x then acc else acc ++ [x]) []

/-- Outcome of the `delete deploy` command action: the early warned return
("No deploys found. Aborting.", empty result, no tasks scheduled) or the
scheduled `DeleteDeployTask` list. -/
inductive DeleteDeployOutcome where
  | warned
  | scheduled (tasks : List DeleteDeployTask)
deriving DecidableEq

/-- The `action` body of `DeleteDeployCommand`: fetch the named deploys
(all deploys when no names are given); warn and return an empty result when
none match; with `--with-dependants` extend the set with every recursive
deploy dependant (deduplicated by name); set dependants-first when either
`--dependants-first` or `--with-dependants` is given; and schedule one
`DeleteDeployTask` per action, all sharing the full name list. -/
def deleteDeployCommand (g : DeployGraph) (names : Option (List String))
    (withDependants dependantsFirstOpt : Bool) : DeleteDeployOutcome :=
  let actions := getDeploys g names
  if actions.isEmpty then .warned
  else
    let actions := if withDependants then
        uniqByName (actions ++ (actions.map (fun s => recursiveDependants g s)).flatten)
      else actions
    let dependantsFirst := dependantsFirstOpt || withDependants
    let deleteDeployNames := actions
    .scheduled (actions.map (fun a =>
      { name := a, dependantsFirst := dependantsFirst, deleteDeployNames := deleteDeployNames }))

/-- The tasks scheduled by an outcome (none when warned). -/
def outcomeTasks : DeleteDeployOutcome → List DeleteDeployTask
  | .warned => []
  | .scheduled ts => ts

/-- The `detail` payload of a test result (`success`, `log`). -/
structure TestDetail where
  success : Bool
  log : String
deriving DecidableEq

/-- `GetTestResult`: the router's cached test result; `detail` may be
absent. -/
structure GetTestResult where
  detail : Option TestDetail
deriving DecidableEq

/-- `TestTask.getTestResult`: returns `null` immediately when `force` is
set (the router — and hence the cache — is never consulted), otherwise
returns the router's `test.getResult` answer (`routerResult`). -/
def getTestResult (force : Bool) (routerResult : Option GetTestResult) : Option GetTestResult :=
  if force then none else routerResult

/-- `TestTask.getStatus`: report the cached result exactly when it exists
and its detail records success; otherwise `null` — whereupon the solver
runs `TestTask.process`, invoking the test-run handler. -/
def getStatus (force : Bool) (routerResult : Option GetTestResult) : Option GetTestResult :=
  match getTestResult force routerResult with
  | some result =>
      match result.detail with
      | some testResult => if testResult.success then some result else none
      | none => none
  | none => none

/-- Outcome of re-parsing the project configuration inside
`validateConfigChange` (`Garden.factory` + `getConfigGraph`, abstracted):
success, a `ConfigurationError`, or any other error. -/
inductive ReparseOutcome where
  | parsed
  | configError (msg : String)
  | otherError (msg : String)
deriving DecidableEq

/-- The log text of `validateConfigChange`'s ConfigurationError branch. -/
def configErrorLogMsg (changedPath operationType msg : String) : String :=
  "Encountered configuration error after " ++ changedPath ++ " was " ++ operationType
    ++ ":\n\n" ++ msg ++ "\n\nKeeping existing configuration and skipping restart."

/-- `validateConfigChange` (`process.ts`): try re-initializing a Garden
instance from the changed config files and building its config graph; a
`ConfigurationError` is logged and yields `false` (keep the existing
instance, skip the restart); success yields `true`; any other error is
rethrown.  Returns the result (or rethrown error) with the logged error
messages. -/
def validateConfigChange (changedPath operationType : String) (outcome : ReparseOutcome) :
    Except String Bool × List String :=
  match outcome with
  | .parsed => (.ok true, [])
  | .configError m => (.ok false, [configErrorLogMsg changedPath operationType m])
  | .otherError m => (.error m, [])

/-- Effect of a config event on the watch loop: keep watching with the
prior configuration, resolve the watch promise (the process then restarts),
or propagate a rethrown non-configuration error. -/
inductive LoopEffect where
  | keepWatching
  | resolveForRestart
  | raised (msg : String)
deriving DecidableEq

/-- The common body of the `configAdded` / `configRemoved` /
`actionConfigChanged` / `projectConfigChanged` handlers in `processActions`:
when `validateConfigChange` returns true the handler logs "reloading..."
and resolves the watch promise; when it returns false the loop keeps the
existing configuration and continues watching. -/
def onConfigEvent (changedPath operationType : String) (outcome : ReparseOutcome) :
    LoopEffect × List String :=
  let v := validateConfigChange changedPath operationType outcome
  match v.1 with
  | .ok true => (.resolveForRestart, v.2)
  | .ok false => (.keepWatching, v.2)
  | .error m => (.raised m, v.2)

/-- How the watch promise of `processActions` was resolved: by the `_exit`
handler, the `_restart` handler, or a validated config change. -/
inductive ResolveReason where
  | manualExit
  | manualRestart
  | configChangeValidated
deriving DecidableEq

/-- The `restartRequired` value `processActions` returns: initialized to
true and cleared only by the `_exit` handler before resolving. -/
def restartRequiredResult : ResolveReason → Bool
  | .manualExit => false
  | .manualRestart => true
  | .configChangeValidated => true

/-- A task's graph result (`GraphResult` in `task-graph.ts`), restricted to
the fields `prepareProcessResult` and `handleProcessResults` read: the
error (presence of the `Error` object, with its message), the output
version, the result version, and the timing fields. -/
structure GraphResult where
  error : Option String
  outputVersion : Option String
  version : Option String
  startedAt : Option Nat
  completedAt : Option Nat
deriving DecidableEq

/-- The record `prepareProcessResult` builds for command output. -/
structure ProcessedResult where
  aborted : Bool
  durationMsec : Option Int
  error : Option String
  success : Bool
  version : Option String
deriving DecidableEq

/-- `prepareProcessResult` (`commands/base.ts`): `aborted` is set exactly
when the graph result is null; `success` requires a non-null result without
an error; `durationMsec` needs both timestamps; `version` prefers a truthy
`output.version` over the result's own version. -/
def prepareProcessResult (graphResult : Option GraphResult) : ProcessedResult where
  aborted := graphResult.isNone
  durationMsec :=
    match graphResult with
    | some r =>
      match r.startedAt, r.completedAt with
      | some s, some c => some ((c : Int) - (s : Int))
      | _, _ => none
    | none => none
  error :=
    match graphResult with
    | some r => r.error
    | none => none
  success :=
    match graphResult with
    | some r => r.error.isNone
    | none => false
  version :=
    match graphResult with
    | some r =>
      match r.outputVersion with
      | some v => if v == "" then r.version else some v
      | none => r.version
    | none => none

/-- The predicate of the `pickBy` in `handleProcessResults`:
`(r) => r && r.error` — null results never count as failed. -/
def resultFailed : Option GraphResult → Bool
  | some r => r.error.isSome
  | none => false

/-- The `failed` map of `handleProcessResults`. -/
def failedTaskEntries (taskResults : List (String × Option GraphResult)) :
    List (String × Option GraphResult) :=
  taskResults.filter (fun e => resultFailed e.2)

/-- The aggregated error of `handleProcessResults`: raised exactly when the
failed count is positive. -/
def handleProcessResultsError (taskType : String)
    (taskResults : List (String × Option GraphResult)) : Option String :=
  let failedCount := (failedTaskEntries taskResults).length
  if 0 < failedCount then
    some (toString failedCount ++ " " ++ taskType ++ " task(s) failed!")
  else none

/-- C1 counterexample: with the left operand of `+` unresolved (a missing
key, message "Could not find key foo."), `buildBinaryExpression` produces an
error of type "template-string" — not the missing-key exception type — and
the optional-suffix handling therefore leaves the failure fatal. -/
theorem undefined_operand_error_is_not_missing_key_at_input :
    evalBinaryStep "+" (Operand.res none (some "Could not find key foo."))
        (Operand.plain (JsVal.num 1))
      = Operand.errRes templateStringType "Could not find key foo."
    ∧ templateStringType ≠ missingKeyExceptionType
    ∧ applyOptionalSuffix (evalBinaryStep "+" (Operand.res none (some "Could not find key foo."))
        (Operand.plain (JsVal.num 1)))
      = Operand.errRes templateStringType "Could not find key foo." :=
  ⟨rfl, by decide, rfl⟩

/-- C1 (amended): for every arithmetic or comparison operator, if either
operand resolves to undefined then the operator evaluation fails with a
generic `TemplateStringError` (type "template-string", message collected
from the operands' resolution messages) — not with the missing-key exception
type — and the optional suffix `}?`, which per the spec passes through only
missing-key/passthrough failures, does not turn this failure into a
non-fatal pass-through. -/
theorem undefined_operand_fails_with_template_string_error
    (op : String) (_hop : op ∈ arithCompOps) (leftRes rightRes : Operand)
    (hl : leftRes.isError = false) (hr : rightRes.isError = false)
    (hu : getValue leftRes = none ∨ getValue rightRes = none) :
    evalBinaryStep op leftRes rightRes
        = Operand.errRes templateStringType (undefinedMessage leftRes rightRes)
      ∧ applyOptionalSuffix (evalBinaryStep op leftRes rightRes)
        = evalBinaryStep op leftRes rightRes := by
  have hstep : evalBinaryStep op leftRes rightRes
      = Operand.errRes templateStringType (undefinedMessage leftRes rightRes) := by
    unfold evalBinaryStep
    rw [hl, hr]
    simp only [Bool.false_eq_true, if_false]
    have : ((getValue leftRes).isNone || (getValue rightRes).isNone) = true := by
      rcases hu with h | h <;> simp [h]
    rw [this]
    simp
  refine ⟨hstep, ?_⟩
  rw [hstep]
  unfold applyOptionalSuffix
  simp [templateStringType, missingKeyExceptionType, passthroughExceptionType]

/-- Witness for the amended C1 theorem at a concrete input. -/
theorem undefined_operand_template_string_error_witness :
    evalBinaryStep "+" (Operand.res none none) (Operand.plain (JsVal.num 1))
        = Operand.errRes templateStringType
            (undefinedMessage (Operand.res none none) (Operand.plain (JsVal.num 1)))
      ∧ applyOptionalSuffix (evalBinaryStep "+" (Operand.res none none) (Operand.plain (JsVal.num 1)))
        = evalBinaryStep "+" (Operand.res none none) (Operand.plain (JsVal.num 1)) :=
  undefined_operand_fails_with_template_string_error "+" (by decide) _ _ rfl rfl (Or.inl rfl)

/-- C2 counterexample: `==` applied to a non-primitive operand (an array)
returns a boolean instead of failing — `buildBinaryExpression` has no
primitive check for `==`/`!=`. -/
theorem eq_operator_accepts_non_primitive_at_input :
    evalBinaryStep "==" (Operand.plain (JsVal.arr [])) (Operand.plain (JsVal.num 1))
      = Operand.plain (JsVal.bool false)
    ∧ isPrimitive (JsVal.arr []) = false
    ∧ (evalBinaryStep "==" (Operand.plain (JsVal.arr [])) (Operand.plain (JsVal.num 1))).isError
      = false :=
  ⟨rfl, rfl, rfl⟩

/-- C2 (amended): for defined operands `==` and `!=` always return the
boolean given by JavaScript strict equality (`===`) and never fail; strict
equality coincides with structural equality when both operands are
primitive (on non-primitives it is reference identity, not a failure). -/
theorem eq_operators_use_strict_equality_and_do_not_fail (l r : JsVal) :
    evalBinaryStep "==" (Operand.plain l) (Operand.plain r)
        = Operand.plain (JsVal.bool (jsStrictEq l r))
    ∧ evalBinaryStep "!=" (Operand.plain l) (Operand.plain r)
        = Operand.plain (JsVal.bool (!jsStrictEq l r))
    ∧ (isPrimitive l = true → isPrimitive r = true → (jsStrictEq l r = true ↔ l = r)) := by
  refine ⟨rfl, rfl, fun hl hr => ?_⟩
  cases l <;> cases r <;> simp_all [jsStrictEq, isPrimitive]

/-- Witness for the amended C2 theorem at concrete primitive operands. -/
theorem eq_operators_strict_equality_witness :
    jsStrictEq (JsVal.str "a") (JsVal.str "a") = true ↔ JsVal.str "a" = JsVal.str "a" :=
  (eq_operators_use_strict_equality_and_do_not_fail (JsVal.str "a") (JsVal.str "a")).2.2 rfl rfl

/-- C3: `+` on two numbers is arithmetic addition, on two arrays it is
concatenation, and on any other combination of defined operand types it
fails with the type-mismatch `TemplateStringError` ("Both terms need to be
either arrays or numbers for + operator"). -/
theorem plus_operator_numbers_arrays_or_type_mismatch (l r : JsVal) :
    (∀ a b : Rat, l = JsVal.num a → r = JsVal.num b →
      evalBinaryStep "+" (Operand.plain l) (Operand.plain r) = Operand.plain (JsVal.num (a + b)))
    ∧ (∀ xs ys : List JsVal, l = JsVal.arr xs → r = JsVal.arr ys →
      evalBinaryStep "+" (Operand.plain l) (Operand.plain r)
        = Operand.plain (JsVal.arr (xs ++ ys)))
    ∧ ((l.isNum && r.isNum) = false → (l.isArr && r.isArr) = false →
      evalBinaryStep "+" (Operand.plain l) (Operand.plain r)
        = Operand.errRes templateStringType (plusMismatchMsg l r)) := by
  refine ⟨fun a b hl hr => ?_, fun xs ys hl hr => ?_, fun h1 h2 => ?_⟩
  · subst hl; subst hr; rfl
  · subst hl; subst hr; rfl
  · cases l <;> cases r <;> simp_all [JsVal.isNum, JsVal.isArr] <;> rfl

/-- Witness for the C3 theorem: `2 + 3` evaluates to the number `2 + 3`. -/
theorem plus_operator_witness :
    evalBinaryStep "+" (Operand.plain (JsVal.num 2)) (Operand.plain (JsVal.num 3))
      = Operand.plain (JsVal.num (2 + 3)) :=
  (plus_operator_numbers_arrays_or_type_mismatch (JsVal.num 2) (JsVal.num 3)).1 2 3 rfl rfl

/-- C4: `&&` returns the left operand when it is falsy and the right operand
otherwise; `||` returns the left operand when it is truthy and the right
operand otherwise; in all cases the returned value is one of the raw
operands (never a coerced boolean), so `a || default` yields the default
when `a` is falsy. -/
theorem logical_operators_return_raw_operand_value
    (leftRes rightRes : Operand) (hl : leftRes.isError = false) (hr : rightRes.isError = false) :
    evalLogicalStep "&&" leftRes rightRes
        = (if truthy (getValue leftRes) then rightRes else leftRes)
    ∧ evalLogicalStep "||" leftRes rightRes
        = (if truthy (getValue leftRes) then leftRes else rightRes)
    ∧ (truthy (getValue leftRes) = false → evalLogicalStep "||" leftRes rightRes = rightRes)
    ∧ (evalLogicalStep "&&" leftRes rightRes = leftRes
        ∨ evalLogicalStep "&&" leftRes rightRes = rightRes)
    ∧ (evalLogicalStep "||" leftRes rightRes = leftRes
        ∨ evalLogicalStep "||" leftRes rightRes = rightRes) := by
  have hand : evalLogicalStep "&&" leftRes rightRes
      = (if truthy (getValue leftRes) then rightRes else leftRes) := by
    unfold evalLogicalStep
    rw [hl, hr]
    cases h : truthy (getValue leftRes) <;> simp [h]
  have hor : evalLogicalStep "||" leftRes rightRes
      = (if truthy (getValue leftRes) then leftRes else rightRes) := by
    unfold evalLogicalStep
    rw [hl, hr]
    cases h : truthy (getValue leftRes) <;> simp [h]
  refine ⟨hand, hor, fun hfalse => ?_, ?_, ?_⟩
  · rw [hor, hfalse]; simp
  · rw [hand]; cases truthy (getValue leftRes) <;> simp
  · rw [hor]; cases truthy (getValue leftRes) <;> simp

/-- Witness for the C4 theorem: an empty-string left operand of `||` yields
the raw right operand. -/
theorem logical_or_default_witness :
    evalLogicalStep "||" (Operand.res (some (JsVal.str "")) none)
        (Operand.plain (JsVal.str "default"))
      = Operand.plain (JsVal.str "default") :=
  (logical_operators_return_raw_operand_value
    (Operand.res (some (JsVal.str "")) none) (Operand.plain (JsVal.str "default"))
    rfl rfl).2.2.1 rfl

/-- Assigning a key makes that key's lookup return the assigned value. -/
theorem lookupEntry_assignEntry_self (es : List (String × JsVal)) (k : String) (v : JsVal) :
    lookupEntry (assignEntry es k v) k = some v := by
  induction es with
  | nil => simp [assignEntry, lookupEntry]
  | cons e rest ih =>
    by_cases he : (e.1 == k) = true
    · simp [assignEntry, he, lookupEntry]
    · simp only [assignEntry, if_neg he]
      unfold lookupEntry at ih ⊢
      rw [List.find?_cons_of_neg]
      · exact ih
      · simpa using he

/-- Assigning a key leaves every other key's lookup unchanged. -/
theorem lookupEntry_assignEntry_other (es : List (String × JsVal)) (k : String) (v : JsVal)
    (k' : String) (hne : (k' == k) = false) :
    lookupEntry (assignEntry es k v) k' = lookupEntry es k' := by
  have hkk : (k == k') = false := by
    cases hb : (k == k') with
    | false => rfl
    | true =>
      have hk := eq_of_beq hb
      subst hk
      simp at hne
  induction es with
  | nil => simp [assignEntry, lookupEntry, List.find?, hkk]
  | cons e rest ih =>
    by_cases he : (e.1 == k) = true
    · have he1 : e.1 = k := eq_of_beq he
      simp only [assignEntry, if_pos he]
      simp [lookupEntry, List.find?, hkk, he1]
    · simp only [assignEntry, if_neg he]
      by_cases hek : (e.1 == k') = true
      · simp [lookupEntry, List.find?, hek]
      · have hek' : (e.1 == k') = false := by simpa using hek
        unfold lookupEntry at ih ⊢
        simp only [List.find?, hek']
        exact ih

/-- C5: in `resolveTemplateStrings`, a `$merge` key's value is resolved
depth-first (the spread uses the resolved mapping `m`, the literal entry its
resolved value `w'`); a resolved mapping is spread into the enclosing
object; a literal key appearing after `$merge` overrides the value the
spread produced for that key while all other keys keep the spread's values;
and a `$merge` value that does not resolve to a mapping fails with a
`ConfigurationError` when allow-partial is not set. -/
theorem merge_key_resolves_depth_first_spreads_overrides_or_fails
    (rs : String → Except TplError JsVal) (v w u : JsVal)
    (m : List (String × JsVal)) (k : String) (w' e : JsVal)
    (hv : resolveTemplateStrings rs false v = .ok (.obj m))
    (hw : resolveTemplateStrings rs false w = .ok w')
    (hk : (k == objectSpreadKey) = false)
    (hu : resolveTemplateStrings rs false u = .ok e)
    (he : e.isObjVal = false) :
    resolveTemplateStrings rs false (.obj [(objectSpreadKey, v), (k, w)])
        = .ok (.obj (assignEntry (spreadEntries [] m) k w'))
    ∧ lookupEntry (assignEntry (spreadEntries [] m) k w') k = some w'
    ∧ (∀ k', (k' == k) = false →
        lookupEntry (assignEntry (spreadEntries [] m) k w') k'
          = lookupEntry (spreadEntries [] m) k')
    ∧ resolveTemplateStrings rs false (.obj [(objectSpreadKey, u)])
        = .error (TplError.configurationError (mergeErrorMsg e)) := by
  refine ⟨?_, lookupEntry_assignEntry_self _ _ _,
    fun k' hk' => lookupEntry_assignEntry_other _ _ _ _ hk', ?_⟩
  · show (do pure (JsVal.obj (← resolveObjEntries rs false [(objectSpreadKey, v), (k, w)] []))
        : Except TplError JsVal) = _
    simp only [resolveObjEntries, hv, hw, hk]
    simp [resolveObjEntries, bind, Except.bind, Functor.map, Except.map, pure, Except.pure]
  · show (do pure (JsVal.obj (← resolveObjEntries rs false [(objectSpreadKey, u)] []))
        : Except TplError JsVal) = _
    simp only [resolveObjEntries, hu]
    cases e <;>
      simp_all [JsVal.isObjVal, bind, Except.bind, Functor.map, Except.map, throw, throwThe,
        MonadExceptOf.throw]

/-- Witness for the C5 theorem at a concrete input: spreading
`[("a", null)]` and then assigning key "b"; and a `$merge` value resolving
to a number fails. -/
theorem merge_key_witness :
    resolveTemplateStrings (fun s => Except.ok (JsVal.str s)) false
        (JsVal.obj [(objectSpreadKey, JsVal.obj [("a", JsVal.null)]), ("b", JsVal.bool true)])
        = Except.ok (JsVal.obj (assignEntry (spreadEntries [] [("a", JsVal.null)]) "b"
            (JsVal.bool true)))
    ∧ lookupEntry (assignEntry (spreadEntries [] [("a", JsVal.null)]) "b" (JsVal.bool true)) "b"
        = some (JsVal.bool true)
    ∧ resolveTemplateStrings (fun s => Except.ok (JsVal.str s)) false
        (JsVal.obj [(objectSpreadKey, JsVal.num 3)])
        = Except.error (TplError.configurationError (mergeErrorMsg (JsVal.num 3))) := by
  have h := merge_key_resolves_depth_first_spreads_overrides_or_fails
    (fun s => Except.ok (JsVal.str s)) (JsVal.obj [("a", JsVal.null)]) (JsVal.bool true)
    (JsVal.num 3) [("a", JsVal.null)] "b" (JsVal.bool true) (JsVal.num 3)
    rfl rfl (by decide) rfl rfl
  exact ⟨h.1, h.2.1, h.2.2.2⟩

/-- C6: with dependants-first enabled, a DeleteDeploy task's prerequisite
tasks are exactly the DeleteDeploy tasks of its direct deploy dependants
that are among the deploy names being deleted; with it disabled there are
no prerequisites; consequently, on the graph where Deploy `b` depends on
Deploy `a`, any duplicate-free valid execution order of a dependants-first
delete covering `a` completes `DeleteDeploy(b)` before `DeleteDeploy(a)`. -/
theorem delete_deploy_dependants_first_prerequisites
    (g : DeployGraph) (t d : DeleteDeployTask) :
    (t.dependantsFirst = false → DeleteDeployTask.resolveDependencies g t = [])
    ∧ (t.dependantsFirst = true →
        (d ∈ DeleteDeployTask.resolveDependencies g t ↔
          d.name ∈ directDependants g t.name
          ∧ t.deleteDeployNames.contains d.name = true
          ∧ d.dependantsFirst = true
          ∧ d.deleteDeployNames = t.deleteDeployNames))
    ∧ (∀ order : List DeleteDeployTask, order.Nodup → validOrder gScenario order →
        scenarioTaskA ∈ order →
        scenarioTaskB ∈ order
        ∧ ∀ i j : Fin order.length,
            order.get i = scenarioTaskA → order.get j = scenarioTaskB → j.1 < i.1) := by
  refine ⟨fun h => by simp [DeleteDeployTask.resolveDependencies, h], fun h => ?_, ?_⟩
  · unfold DeleteDeployTask.resolveDependencies
    rw [h]
    simp only [Bool.not_true, Bool.false_eq_true, if_false]
    constructor
    · intro hd
      simp only [List.mem_map, List.mem_filter] at hd
      obtain ⟨n, ⟨hn1, hn2⟩, rfl⟩ := hd
      exact ⟨hn1, hn2, rfl, rfl⟩
    · rintro ⟨h1, h2, h3, h4⟩
      simp only [List.mem_map, List.mem_filter]
      refine ⟨d.name, ⟨h1, h2⟩, ?_⟩
      cases d
      simp_all
  · intro order hnodup hvalid hmem
    obtain ⟨i, hi⟩ := List.mem_iff_get.mp hmem
    have hdep : scenarioTaskB ∈ DeleteDeployTask.resolveDependencies gScenario (order.get i) := by
      rw [hi]; decide
    obtain ⟨j0, hj0lt, hj0⟩ := hvalid i scenarioTaskB hdep
    constructor
    · rw [← hj0]
      exact order.get_mem j0.1 j0.2
    · intro i' j' hi' hj'
      have hdep' : scenarioTaskB
          ∈ DeleteDeployTask.resolveDependencies gScenario (order.get i') := by
        rw [hi']; decide
      obtain ⟨j1, hj1lt, hj1⟩ := hvalid i' scenarioTaskB hdep'
      have hj : j' = j1 := (List.Nodup.get_inj_iff hnodup).mp (hj'.trans hj1.symm)
      rw [hj]
      exact hj1lt

/-- Witness for the C6 theorem on the concrete scenario order
`[DeleteDeploy(b), DeleteDeploy(a)]`. -/
theorem delete_deploy_dependants_first_witness :
    scenarioTaskB ∈ ([scenarioTaskB, scenarioTaskA] : List DeleteDeployTask) :=
  ((delete_deploy_dependants_first_prerequisites gScenario scenarioTaskA scenarioTaskA).2.2
    [scenarioTaskB, scenarioTaskA] (by decide) (by decide) (by decide)).1

/-- Folding the dedup step preserves membership. -/
theorem mem_uniqByName_aux (xs : List String) (acc : List String) (y : String) :
    (y ∈ xs.foldl (fun acc x => if acc.contains x then acc else acc ++ [x]) acc)
      ↔ y ∈ acc ∨ y ∈ xs := by
  induction xs generalizing acc with
  | nil => simp
  | cons x rest ih =>
    simp only [List.foldl_cons]
    by_cases h : acc.contains x = true
    · rw [if_pos h]
      rw [ih]
      constructor
      · rintro (ha | hr)
        · exact Or.inl ha
        · exact Or.inr (List.mem_cons_of_mem _ hr)
      · rintro (ha | hxr)
        · exact Or.inl ha
        · rcases List.mem_cons.mp hxr with rfl | hr
          · exact Or.inl (by simpa using h)
          · exact Or.inr hr
    · rw [if_neg h]
      rw [ih]
      constructor
      · rintro (ha | hr)
        · rcases List.mem_append.mp ha with ha' | hx
          · exact Or.inl ha'
          · simp only [List.mem_singleton] at hx
            exact Or.inr (hx ▸ List.mem_cons_self _ _)
        · exact Or.inr (List.mem_cons_of_mem _ hr)
      · rintro (ha | hxr)
        · exact Or.inl (List.mem_append_left _ ha)
        · rcases List.mem_cons.mp hxr with rfl | hr
          · exact Or.inl (List.mem_append_right _ (by simp))
          · exact Or.inr hr

/-- `uniqByName` preserves membership. -/
theorem mem_uniqByName (xs : List String) (y : String) :
    y ∈ uniqByName xs ↔ y ∈ xs := by
  unfold uniqByName
  rw [mem_uniqByName_aux]
  simp

/-- C9: `delete deploy` warns and schedules nothing when no deploys match;
with `--with-dependants` the scheduled task set covers exactly the named
deploys together with every deploy transitively depending on one of them;
and `--with-dependants` forces dependants-first ordering even when
`--dependants-first` was not given. -/
theorem delete_deploy_command_spec
    (g : DeployGraph) (names : Option (List String)) (wd df : Bool) :
    (getDeploys g names = [] → deleteDeployCommand g names wd df = .warned)
    ∧ (getDeploys g names ≠ [] → ∀ n : String,
        ((∃ t ∈ outcomeTasks (deleteDeployCommand g names true df), t.name = n) ↔
          n ∈ getDeploys g names
          ∨ ∃ s ∈ getDeploys g names, n ∈ recursiveDependants g s))
    ∧ (getDeploys g names ≠ [] →
        ∀ t ∈ outcomeTasks (deleteDeployCommand g names true false),
          t.dependantsFirst = true) := by
  refine ⟨fun h => ?_, fun h n => ?_, fun h t ht => ?_⟩
  · simp [deleteDeployCommand, h]
  · have hne : (getDeploys g names).isEmpty = false := by
      cases hx : getDeploys g names with
      | nil => exact absurd hx h
      | cons a l => simp [List.isEmpty]
    simp only [deleteDeployCommand, hne, Bool.false_eq_true, if_false, if_true, outcomeTasks]
    constructor
    · rintro ⟨t, ht, rfl⟩
      simp only [List.mem_map] at ht
      obtain ⟨a, ha, rfl⟩ := ht
      rw [mem_uniqByName] at ha
      rcases List.mem_append.mp ha with h1 | h2
      · exact Or.inl h1
      · rw [List.mem_flatten] at h2
        obtain ⟨l, hl, hal⟩ := h2
        rw [List.mem_map] at hl
        obtain ⟨s, hs, rfl⟩ := hl
        exact Or.inr ⟨s, hs, hal⟩
    · intro hn
      have hmem : n ∈ uniqByName (getDeploys g names
          ++ ((getDeploys g names).map (fun s => recursiveDependants g s)).flatten) := by
        rw [mem_uniqByName, List.mem_append]
        rcases hn with h1 | ⟨s, hs, hrec⟩
        · exact Or.inl h1
        · refine Or.inr ?_
          rw [List.mem_flatten]
          exact ⟨recursiveDependants g s, List.mem_map.mpr ⟨s, hs, rfl⟩, hrec⟩
      exact ⟨_, List.mem_map.mpr ⟨n, hmem, rfl⟩, rfl⟩
  · have hne : (getDeploys g names).isEmpty = false := by
      cases hx : getDeploys g names with
      | nil => exact absurd hx h
      | cons a l => simp [List.isEmpty]
    simp only [deleteDeployCommand, hne, Bool.false_eq_true, if_false, if_true,
      outcomeTasks] at ht
    rw [List.mem_map] at ht
    obtain ⟨a, _, rfl⟩ := ht
    rfl

/-- Witness for the C9 theorem: an empty graph warns, and deleting `a` with
`--with-dependants` on the scenario graph also schedules its dependant
`b`. -/
theorem delete_deploy_command_witness :
    deleteDeployCommand (DeployGraph.mk [] []) none true false = .warned
    ∧ (∃ t ∈ outcomeTasks (deleteDeployCommand gScenario (some ["a"]) true false),
        t.name = "b") :=
  ⟨(delete_deploy_command_spec (DeployGraph.mk [] []) none true false).1 rfl,
    ((delete_deploy_command_spec gScenario (some ["a"]) true false).2.1 (by decide) "b").mpr
      (Or.inr ⟨"a", by decide, by decide⟩)⟩

/-- C7: a Test task short-circuits (non-null `getStatus`) exactly when
`force` is unset and a cached result with `success = true` exists; when
`force` is set, `getTestResult` returns null before consulting the router
for any cache contents, so the test runs; and a short-circuit returns the
cached result itself. -/
theorem test_task_short_circuits_iff_cached_success_and_not_forced
    (force : Bool) (routerResult : Option GetTestResult) :
    ((getStatus force routerResult).isSome = true ↔
      force = false
        ∧ ∃ r d, routerResult = some r ∧ r.detail = some d ∧ d.success = true)
    ∧ (force = true →
        ∀ c : Option GetTestResult, getTestResult true c = none ∧ getStatus true c = none)
    ∧ ((getStatus force routerResult).isSome = true →
        getStatus force routerResult = routerResult) := by
  refine ⟨?_, fun _ c => ⟨rfl, rfl⟩, ?_⟩
  · cases force with
    | true => simp [getStatus, getTestResult]
    | false =>
      cases routerResult with
      | none => simp [getStatus, getTestResult]
      | some r =>
        cases hd : r.detail with
        | none => simp [getStatus, getTestResult, hd]
        | some d =>
          cases hs : d.success with
          | false => simp [getStatus, getTestResult, hd, hs]
          | true => simp [getStatus, getTestResult, hd, hs]
  · cases force with
    | true => simp [getStatus, getTestResult]
    | false =>
      cases routerResult with
      | none => simp [getStatus, getTestResult]
      | some r =>
        cases hd : r.detail with
        | none => simp [getStatus, getTestResult, hd]
        | some d =>
          cases hs : d.success with
          | false => simp [getStatus, getTestResult, hd, hs]
          | true => simp [getStatus, getTestResult, hd, hs]

/-- Witness for the C7 theorem: an unforced task with a successful cached
result short-circuits. -/
theorem test_task_short_circuit_witness :
    (getStatus false (some (GetTestResult.mk (some (TestDetail.mk true "ok"))))).isSome = true :=
  (test_task_short_circuits_iff_cached_success_and_not_forced false
      (some (GetTestResult.mk (some (TestDetail.mk true "ok"))))).1.mpr
    ⟨rfl, GetTestResult.mk (some (TestDetail.mk true "ok")), TestDetail.mk true "ok",
      rfl, rfl, rfl⟩

/-- C8: on every config added/changed/removed event the project is
re-parsed; a successful re-parse resolves the watch loop with
`restartRequired = true` (the process restarts); a re-parse failing with a
`ConfigurationError` logs the error, keeps the existing configuration and
continues watching without restarting. -/
theorem config_events_reparse_log_keep_or_restart (changedPath operationType m : String) :
    onConfigEvent changedPath operationType .parsed = (.resolveForRestart, [])
    ∧ onConfigEvent changedPath operationType (.configError m)
        = (.keepWatching, [configErrorLogMsg changedPath operationType m])
    ∧ restartRequiredResult .configChangeValidated = true
    ∧ restartRequiredResult .manualExit = false :=
  ⟨rfl, rfl, rfl, rfl⟩

/-- C10: a null graph result is reported with `aborted = true` and
`success = false`, and the aggregated "N task(s) failed" error is raised if
and only if some non-null graph result carries an error — null results are
excluded from the failed count. -/
theorem null_results_aborted_and_excluded_from_failure_count
    (taskType : String) (taskResults : List (String × Option GraphResult)) :
    (prepareProcessResult none).aborted = true
    ∧ (prepareProcessResult none).success = false
    ∧ ((handleProcessResultsError taskType taskResults).isSome = true ↔
        ∃ e ∈ taskResults, ∃ r, e.2 = some r ∧ r.error.isSome = true) := by
  refine ⟨rfl, rfl, ?_⟩
  have hpred : ∀ o : Option GraphResult,
      resultFailed o = true ↔ ∃ r, o = some r ∧ r.error.isSome = true := by
    intro o
    cases o <;> simp [resultFailed]
  unfold handleProcessResultsError failedTaskEntries
  constructor
  · intro hsome
    by_cases hlen : 0 < (taskResults.filter (fun e => resultFailed e.2)).length
    · have hne : taskResults.filter (fun e => resultFailed e.2) ≠ [] :=
        List.length_pos.mp hlen
      obtain ⟨e, he⟩ := List.exists_mem_of_ne_nil _ hne
      have hm := List.mem_filter.mp he
      exact ⟨e, hm.1, (hpred e.2).mp hm.2⟩
    · simp [hlen] at hsome
  · rintro ⟨e, he, r, her, hr⟩
    have hmem : e ∈ taskResults.filter (fun e => resultFailed e.2) :=
      List.mem_filter.mpr ⟨he, (hpred e.2).mpr ⟨r, her, hr⟩⟩
    have hlen : 0 < (taskResults.filter (fun e => resultFailed e.2)).length :=
      List.length_pos.mpr (fun hnil => by rw [hnil] at hmem; cases hmem)
    simp [hlen]

/-- Witness for the C10 theorem: one aborted (null) and one failed entry —
the aggregated error is raised by the failed entry. -/
theorem null_results_aborted_witness :
    (handleProcessResultsError "build"
        [("build.x", none),
          ("build.y", some (GraphResult.mk (some "boom") none none none none))]).isSome
      = true :=
  (null_results_aborted_and_excluded_from_failure_count "build"
      [("build.x", none),
        ("build.y", some (GraphResult.mk (some "boom") none none none none))]).2.2.mpr
    ⟨("build.y", some (GraphResult.mk (some "boom") none none none none)),
      by simp, GraphResult.mk (some "boom") none none none none, rfl, rfl⟩
